import Mathlib

/-!
Verification of the binary protocol layer of a JNI wrapper around bwa-mem
(`src/main/c/jnibwa.c`): the alignment-record codec (`fmt_BAMish` / `bufLen`),
the batch encoder (`jnibwa_createAlignments`), the index-image container
(`jnibwa_createIndexFile` / `jnibwa_openIndex`), and the contig-directory
encoder (`jnibwa_getRefContigNames`).

The C code is shallowly embedded: machine words are `Nat` values reduced
modulo 2^32 where the C code truncates, buffers are `List Nat` (one entry per
32-bit word for the record streams, one entry per byte for image payloads and
name buffers), and fallible paths return explicit result types.
-/

/-- Truncation of a signed value to a 32-bit word, as `kput32` does when it
copies the four bytes of an `int32_t` into the output string. -/
def u32 (i : Int) : Nat := (i % 4294967296).toNat

/-- Truncation of an unsigned value to a 32-bit word. -/
def u32n (n : Nat) : Nat := n % 4294967296

/-- The fields of a bwa `mem_aln_t` that `fmt_BAMish` reads.  `cigar` holds the
`n_cigar` packed `(length << 4 | op)` words (internal op codes 0..4 = MIDSH);
`MD` holds the bytes of the MD string that sits in memory right after the cigar
array (a C string, so its bytes are nonzero); `XA` is the XA string pointer,
`none` when the pointer is null. -/
structure mem_aln_t where
  pos : Int
  rid : Int
  flag : Nat
  is_rev : Bool
  mapq : Nat
  NM : Int
  cigar : List Nat
  MD : List Nat
  XA : Option (List Nat)
  score : Int
  sub : Int

/-- `cigarRefLen` from jnibwa.c: total reference length consumed by a cigar,
counting only ops with internal code 0 (M) or 2 (D):
`if ( !op || op == 2 ) len += lenOp >> 4;`. -/
def cigarRefLen (cigar : List Nat) : Nat :=
  cigar.foldl
    (fun len lenOp =>
      if lenOp &&& 0xf = 0 ∨ lenOp &&& 0xf = 2 then len + (lenOp >>> 4) else len)
    0

/-- The first word `fmt_BAMish` writes for a record:
`flag_mapQ = p->flag; if (p->flag & 0x10000) flag_mapQ |= 0x100;`
`flag_mapQ = (flag_mapQ << 16) | (p->mapq & 0xff);` truncated to 32 bits. -/
def flagMapQ (p : mem_aln_t) : Nat :=
  let f := if p.flag &&& 0x10000 ≠ 0 then p.flag ||| 0x100 else p.flag
  u32n (f * 65536 + (p.mapq &&& 0xff))

/-- Cigar-op translation performed while emitting each cigar word:
`if ( (lenOp & 0xf) > 2 ) ++lenOp;` (internal MIDSH codes above 2 are shifted
up by one to leave a hole for the BAM N op).  The word is a `uint32_t`, hence
the reduction modulo 2^32. -/
def cigarWord (lenOp : Nat) : Nat :=
  if lenOp &&& 0xf > 2 then u32n (lenOp + 1) else u32n lenOp

/-- `int32_t nMD = p->n_cigar ? strlen((char*)pCig) : 0;` — the MD string is
only consulted when at least one cigar op exists. -/
def nMD (p : mem_aln_t) : Nat := if p.cigar.length ≠ 0 then p.MD.length else 0

/-- `int32_t nXA = p->XA ? strlen(p->XA) : 0;` -/
def nXA (p : mem_aln_t) : Nat :=
  match p.XA with
  | none => 0
  | some s => s.length

/-- Packing a byte string into little-endian 32-bit words, one word per four
bytes, `(len+3) & ~3` bytes in all.  The C code (`kputsn(ptr, (n+3)&~3, str)`)
copies whatever bytes follow the string as padding; the spec leaves the pad
bytes unspecified, and here they are taken to be zero. -/
def bytesToWords : List Nat → List Nat
  | b0 :: b1 :: b2 :: b3 :: bs =>
      (b0 + 256 * b1 + 65536 * b2 + 16777216 * b3) :: bytesToWords bs
  | [] => []
  | [b0] => [b0]
  | [b0, b1] => [b0 + 256 * b1]
  | [b0, b1, b2] => [b0 + 256 * b1 + 65536 * b2]

/-- The words holding the MD tag bytes: written only when `nMD` is nonzero. -/
def mdWords (p : mem_aln_t) : List Nat :=
  if nMD p ≠ 0 then bytesToWords p.MD else []

/-- The words holding the XA tag bytes: written only when `nXA` is nonzero. -/
def xaWords (p : mem_aln_t) : List Nat :=
  if nXA p ≠ 0 then bytesToWords (p.XA.getD []) else []

/-- The template-length value `fmt_BAMish` writes as the third mate word:
zero when this read is unmapped or the two reads sit on different references,
otherwise `m0 - p0` biased by the strict comparison of the two coordinates,
where each coordinate is the read's position, bumped to its other end
(`pos + cigarRefLen - 1`) when that read is reverse-strand. -/
def tlen (p m : mem_aln_t) : Int :=
  if p.flag &&& 0x4 ≠ 0 ∨ p.rid ≠ m.rid then 0
  else
    let p0 : Int := p.pos + (if p.is_rev then (cigarRefLen p.cigar : Int) - 1 else 0)
    let m0 : Int := m.pos + (if m.is_rev then (cigarRefLen m.cigar : Int) - 1 else 0)
    m0 - p0 + (if p0 > m0 then -1 else if p0 < m0 then 1 else 0)

/-- The mate-info words, present exactly when `(p->flag & 0x9) == 1`
(paired, mate mapped): mate reference id, mate position, template length. -/
def mateWords (p m : mem_aln_t) : List Nat :=
  if p.flag &&& 0x9 = 1 then [u32 m.rid, u32 m.pos, u32 (tlen p m)] else []

/-- The words `fmt_BAMish` appends for one alignment record (everything after
the per-sequence count word): the flag/mapq word always; the mapped fields
(refid, pos, NM, score, sub, cigar count, cigar words, MD length and bytes,
XA length and bytes) exactly when `(p->flag & 0x4) == 0`; the mate fields
exactly when `(p->flag & 0x9) == 1`. -/
def fmt_BAMish_rec (p m : mem_aln_t) : List Nat :=
  flagMapQ p ::
    ((if p.flag &&& 0x4 = 0 then
        u32 p.rid :: u32 p.pos :: u32 p.NM :: u32 p.score :: u32 p.sub ::
          u32n p.cigar.length ::
          (p.cigar.map cigarWord ++
            u32n (nMD p) :: (mdWords p ++ u32n (nXA p) :: xaWords p))
      else []) ++ mateWords p m)

/-- The complete per-sequence buffer produced by calling `fmt_BAMish` with
`which = 0 .. n-1`: the alignment count written by the `which == 0` call,
then the records in order.  Each alignment carries its own record `p` and its
mate `m`. -/
def fmt_BAMish_seq (alns : List (mem_aln_t × mem_aln_t)) : List Nat :=
  u32n alns.length :: (alns.map fun a => fmt_BAMish_rec a.1 a.2).flatten

/-- The per-record loop of `bufLen`, walking `nAligns` records of a word
buffer.  The buffer words are the nonnegative 32-bit images of the `int32_t`
values the C code reads; `w >>> 16` keeps the low 16 bits of the flag field,
which agree with the C arithmetic shift on the bits 0x4 and 0x9 that are
tested.  An exhausted buffer (never reached on well-formed input) contributes
nothing. -/
def bufLenGo : Nat → List Nat → Nat
  | 0, _ => 0
  | nAligns + 1, ws =>
    match ws with
    | [] => 0
    | w :: ws1 =>
      let flag := w >>> 16
      let s1 :=
        if flag &&& 0x4 = 0 then
          let wsA := ws1.drop 5
          let nCig := wsA.headD 0
          let wsB := (wsA.drop 1).drop nCig
          let nMDw := (wsB.headD 0 + 3) >>> 2
          let wsC := (wsB.drop 1).drop nMDw
          let nXAw := (wsC.headD 0 + 3) >>> 2
          let wsD := (wsC.drop 1).drop nXAw
          (8 + nCig + nMDw + nXAw, wsD)
        else (0, ws1)
      let s2 := if flag &&& 0x9 = 1 then (3, s1.2.drop 3) else (0, s1.2)
      1 + s1.1 + s2.1 + bufLenGo nAligns s2.2

/-- `bufLen` from jnibwa.c: starting from `totLen = 1` (the count word), reads
the alignment count and accumulates each record's word count from the counts
embedded in the buffer itself. -/
def bufLen (ws : List Nat) : Nat := 1 + bufLenGo (ws.headD 0) ws.tail

/-- Record validity bounds under which the 32-bit truncations in the encoder
are the identity on the embedded counts (they hold for any record bwa can
actually produce, and keep every `int32_t` in `bufLen` positive). -/
def ValidAln (p : mem_aln_t) : Prop :=
  p.cigar.length < 2147483644 ∧ p.MD.length < 2147483644 ∧ nXA p < 2147483644

/-- `jnibwa_createAlignments`, batch-encoding part: `mem_process_seqs` leaves
one `fmt_BAMish`-formatted buffer per input sequence; the function then sums
`bufLen` over those buffers, allocates that many words, and copies
`bufLen(sam)` words of each buffer, in input order, into the result.  The
output carries no batch-level count word. -/
def jnibwa_createAlignments (seqs : List (List (mem_aln_t × mem_aln_t))) : List Nat :=
  (seqs.map fun alns => (fmt_BAMish_seq alns).take (bufLen (fmt_BAMish_seq alns))).flatten

/-- The 7-byte magic `"BWAINDX"` (`BWA_IDX_ID` in jnibwa.c). -/
def BWA_IDX_ID : List Nat := [66, 87, 65, 73, 78, 68, 88]

/-- `image_footer_t` from jnibwa.c: the 64-byte trailer
`{ image_len:u64, crc:u64, bwa_version:[u8;40], pad_len:u8, id:[u8;7] }`.
`bwa_version` and `id` are kept as byte lists. -/
structure image_footer_t where
  image_len : Nat
  crc : Nat
  bwa_version : List Nat
  pad_len : Nat
  id : List Nat
deriving DecidableEq

/-- `sizeof(image_footer_t)` = 8 + 8 + 40 + 1 + 7. -/
def footerSize : Nat := 64

/-- `getPadding` from jnibwa.c: `(8UL - (len & 7UL)) & 7UL`. -/
def getPadding (len : Nat) : Nat := (8 - (len &&& 7)) &&& 7

/-- One byte of the Adler-32 state update: `a` accumulates the byte, `b`
accumulates `a`, both modulo 65521 (zlib defers the reductions but produces
the same residues). -/
def adler32Step (ab : Nat × Nat) (b : Nat) : Nat × Nat :=
  let a := (ab.1 + b) % 65521
  (a, (ab.2 + a) % 65521)

/-- `bigAdler32` from jnibwa.c: zlib `adler32` chained over chunks of at most
1 GiB starting from `adler32(0,0,0) = 1`.  Chaining the per-chunk calls is the
same left fold over the concatenated bytes, so the chunked loop collapses to
one fold. -/
def bigAdler32 (bytes : List Nat) : Nat :=
  let ab := bytes.foldl adler32Step (1, 0)
  ab.2 * 65536 + ab.1

/-- A written image file: payload bytes, then `pad_len` padding bytes, then
the 64-byte footer (kept structured; the C code reads it back with a struct
cast at the same offsets it was written). -/
structure ImageFile where
  payload : List Nat
  padBytes : List Nat
  footer : image_footer_t

/-- The success path of `jnibwa_createIndexFile`: writes the payload, then
`getPadding(l_mem)` padding bytes (taken from the head of the magic string),
then the footer with `image_len = l_mem + sizeof(footer) + padding`, the
payload checksum, the producing build's 40-byte version, the pad length and
the magic. -/
def jnibwa_createIndexFile (ver : List Nat) (payload : List Nat) : ImageFile :=
  let padding := getPadding payload.length
  { payload := payload
    padBytes := BWA_IDX_ID.take padding
    footer :=
      { image_len := payload.length + footerSize + padding
        crc := bigAdler32 payload
        bwa_version := ver
        pad_len := padding
        id := BWA_IDX_ID } }

/-- Total size of the written file. -/
def fileSize (img : ImageFile) : Nat :=
  img.payload.length + img.padBytes.length + footerSize

/-- The outcomes of `jnibwa_openIndex`, in the order the C code tests them.
`versionMismatch` carries the two strings handed to `createErrorMessage`:
the creating build's version from the footer and the running build's version. -/
inductive OpenResult where
  | ok (imageSize : Nat)
  | errNotMultipleOf8
  | errTooSmall
  | errBadId
  | errSizeMismatch
  | versionMismatch (creator current : List Nat)
  | errBadCRC
deriving DecidableEq

/-- `jnibwa_openIndex` from jnibwa.c, with `ver` the running build's
`BWA_COMMIT` bytes: validates, in order, size divisible by 8, size at least
the footer, magic, `image_len == file size`, then (unless `ignoreVersion`)
the 40-byte version field, then (if `compareCRC`) recomputes `bigAdler32`
over the first `size - sizeof(footer) - pad_len` file bytes and compares it
with the stored checksum.  Every failure unmaps and returns the error; the
interior allocation is modeled as succeeding. -/
def jnibwa_openIndex (ver : List Nat) (img : ImageFile)
    (ignoreVersion compareCRC : Bool) : OpenResult :=
  if fileSize img % 8 ≠ 0 then .errNotMultipleOf8
  else if fileSize img < footerSize then .errTooSmall
  else if img.footer.id ≠ BWA_IDX_ID then .errBadId
  else if img.footer.image_len ≠ fileSize img then .errSizeMismatch
  else if ¬ignoreVersion ∧ img.footer.bwa_version ≠ ver then
    .versionMismatch img.footer.bwa_version ver
  else if compareCRC ∧
      bigAdler32 ((img.payload ++ img.padBytes).take
          (fileSize img - footerSize - img.footer.pad_len)) ≠ img.footer.crc then
    .errBadCRC
  else .ok (fileSize img - footerSize - img.footer.pad_len)

/-- Corruption of one payload byte of a written image. -/
def corruptPayload (img : ImageFile) (i : Nat) (v : Nat) : ImageFile :=
  { img with payload := img.payload.set i v }

/-- Little-endian bytes of a 32-bit store (`*(int32_t*)pBuf = n`). -/
def le32 (n : Nat) : List Nat :=
  [n % 256, n / 256 % 256, n / 65536 % 256, n / 16777216 % 256]

/-- `jnibwa_getRefContigNames`: first computes
`bufSize = 4 + 4*nRefContigs + sum (strlen(name)+1)`, then writes the contig
count followed by `(length, bytes)` for each name, in annotation-table order.
Returns the reported size and the bytes actually written. -/
def jnibwa_getRefContigNames (names : List (List Nat)) : Nat × List Nat :=
  let bufSize := 4 + 4 * names.length + (names.map fun nm => nm.length + 1).sum
  (bufSize, le32 names.length ++ (names.map fun nm => le32 nm.length ++ nm).flatten)

/-- `jnibwa_getRefContigNames` with the outcome of its single `malloc` made
explicit.  The C code computes `bufSize` in full, then allocates; on
allocation failure it bails out (`if ( !bufMem ) return bufMem;`) before any
byte is written — the only failure path the function has — and otherwise
writes the entire buffer and reports `bufSize`. -/
def jnibwa_getRefContigNames_alloc (allocOk : Bool) (names : List (List Nat)) :
    Option (Nat × List Nat) :=
  if !allocOk then none else some (jnibwa_getRefContigNames names)

/-- Resource accounting of the result-buffer phase of
`jnibwa_createAlignments` (jnibwa.c lines 319-341), with the outcome of the
`malloc` for the result made explicit.  `sams` is the per-sequence list of
`sam` buffers left by `mem_process_seqs` (`none` for a null pointer).  On
malloc failure the C code runs `free(pSeq1Beg); return resultsBeg;` — it
frees the `bseq1_t` array but none of the sam buffers.  On success it copies
`bufLen(sam)` words of each non-null sam into the result, freeing each sam,
then frees the array. -/
structure AlignBatchOutcome where
  result : Option (List Nat)
  freedSams : List (List Nat)
  freedSeqArray : Bool
deriving DecidableEq

def jnibwa_createAlignments_alloc (allocOk : Bool)
    (sams : List (Option (List Nat))) : AlignBatchOutcome :=
  if !allocOk then
    { result := none, freedSams := [], freedSeqArray := true }
  else
    { result := some ((sams.map fun s =>
        match s with
        | none => []
        | some b => b.take (bufLen b)).flatten)
      freedSams := sams.filterMap id
      freedSeqArray := true }

/-- Written from the claim's words, for comparison with `cigarRefLen`:
"reference-consumed length counts only CIGAR operations with internal codes
0 (M) and 2 (D)". -/
def spec_refConsumed (cigar : List Nat) : Nat :=
  ((cigar.filter fun lenOp => lenOp &&& 0xf = 0 ∨ lenOp &&& 0xf = 2).map
    fun lenOp => lenOp >>> 4).sum

/-- The template length exactly as claim C6 states it: "0 when the mate is
unmapped or on a different reference; otherwise m0 - p0 + bias", with p0 the
read's start position plus its reference-consumed CIGAR length minus 1 when
reverse-strand, m0 the mate's equivalent, and bias -1/+1/0 by comparison. -/
def spec_templateLength_asStated (p m : mem_aln_t) : Int :=
  if m.flag &&& 0x4 ≠ 0 ∨ p.rid ≠ m.rid then 0
  else
    let p0 : Int := p.pos + (if p.is_rev then (spec_refConsumed p.cigar : Int) - 1 else 0)
    let m0 : Int := m.pos + (if m.is_rev then (spec_refConsumed m.cigar : Int) - 1 else 0)
    m0 - p0 + (if p0 > m0 then -1 else if p0 < m0 then 1 else 0)

/-- The template length as claim C6 must be amended to match the code: the
zero case tests whether THIS read is unmapped (`p->flag & 0x4`), not whether
the mate is. -/
def spec_templateLength_amended (p m : mem_aln_t) : Int :=
  if p.flag &&& 0x4 ≠ 0 ∨ p.rid ≠ m.rid then 0
  else
    let p0 : Int := p.pos + (if p.is_rev then (spec_refConsumed p.cigar : Int) - 1 else 0)
    let m0 : Int := m.pos + (if m.is_rev then (spec_refConsumed m.cigar : Int) - 1 else 0)
    m0 - p0 + (if p0 > m0 then -1 else if p0 < m0 then 1 else 0)

/-- An unmapped, unpaired record (`flag = 4`). -/
def exUnmapped : mem_aln_t :=
  { pos := -1, rid := -1, flag := 4, is_rev := false, mapq := 0, NM := 0,
    cigar := [], MD := [], XA := none, score := 0, sub := 0 }

/-- A mapped, paired record with two cigar ops, a 2-byte MD and a 5-byte XA. -/
def exMapped : mem_aln_t :=
  { pos := 100, rid := 0, flag := 1, is_rev := false, mapq := 37, NM := 1,
    cigar := [161, 32], MD := [65, 66], XA := some [67, 68, 69, 70, 71],
    score := 10, sub := 5 }

/-- A mapped, paired, reverse-strand record with one cigar op. -/
def exMate : mem_aln_t :=
  { pos := 200, rid := 0, flag := 1, is_rev := true, mapq := 20, NM := 0,
    cigar := [320], MD := [], XA := none, score := 8, sub := 2 }

/-- A mixed per-sequence alignment list exercising every record shape. -/
def exBatch1 : List (mem_aln_t × mem_aln_t) :=
  [(exMapped, exMate), (exUnmapped, exUnmapped), (exMate, exMapped)]

/-- A two-sequence batch, one alignment per sequence. -/
def exBatch2 : List (List (mem_aln_t × mem_aln_t)) :=
  [[(exUnmapped, exUnmapped)], [(exUnmapped, exUnmapped)]]

/-- A paired record whose own read is unmapped while its mate is mapped
(`flag = 5`: paired 0x1, read unmapped 0x4, mate mapped since 0x8 clear). -/
def exC6p : mem_aln_t :=
  { pos := 0, rid := 0, flag := 5, is_rev := false, mapq := 0, NM := 0,
    cigar := [], MD := [], XA := none, score := 0, sub := 0 }

/-- The mapped mate of `exC6p`, on the same reference at position 10. -/
def exC6m : mem_aln_t :=
  { pos := 10, rid := 0, flag := 1, is_rev := false, mapq := 0, NM := 0,
    cigar := [160], MD := [], XA := none, score := 0, sub := 0 }

/-- A mapped record with no cigar ops but with MD bytes attached. -/
def exNoCig : mem_aln_t :=
  { pos := 3, rid := 2, flag := 0, is_rev := false, mapq := 11, NM := 0,
    cigar := [], MD := [77, 78], XA := none, score := 9, sub := 1 }

/-- A 40-byte producer version (forty `'0'` bytes). -/
def ver0 : List Nat := List.replicate 40 48

/-- An 8-byte payload (already 8-aligned, so no padding). -/
def pay0 : List Nat := [1, 2, 3, 4, 5, 6, 7, 8]

instance (p : mem_aln_t) : Decidable (ValidAln p) :=
  inferInstanceAs (Decidable (_ ∧ _ ∧ _))

theorem mod_two_pow_and (f mask k : Nat) (hmask : mask < 2 ^ k) :
    (f % 2 ^ k) &&& mask = f &&& mask := by
  apply Nat.eq_of_testBit_eq
  intro i
  simp only [Nat.testBit_and, Nat.testBit_mod_two_pow]
  by_cases h : i < k
  · simp [h]
  · have hm : mask.testBit i = false :=
      Nat.testBit_eq_false_of_lt
        (lt_of_lt_of_le hmask (Nat.pow_le_pow_right (by norm_num) (le_of_not_lt h)))
    simp [h, hm]

theorem or_and_of_disjoint (f a mask : Nat) (h : a &&& mask = 0) :
    (f ||| a) &&& mask = f &&& mask := by
  apply Nat.eq_of_testBit_eq
  intro i
  simp only [Nat.testBit_and, Nat.testBit_or]
  cases hA : a.testBit i
  · simp
  · have h2 := congrArg (fun x => Nat.testBit x i) h
    simp [Nat.testBit_and, hA] at h2
    simp [h2]

theorem flagMapQ_shift (p : mem_aln_t) :
    flagMapQ p >>> 16 =
      (if p.flag &&& 0x10000 ≠ 0 then p.flag ||| 0x100 else p.flag) % 65536 := by
  have hq : p.mapq &&& 255 ≤ 255 := Nat.and_le_right
  simp only [flagMapQ, u32n, Nat.shiftRight_eq_div_pow]
  omega

theorem flag_read_and (p : mem_aln_t) (mask : Nat) (hm : mask < 65536)
    (hdis : 256 &&& mask = 0) :
    (flagMapQ p >>> 16) &&& mask = p.flag &&& mask := by
  rw [flagMapQ_shift]
  have h216 : (65536 : Nat) = 2 ^ 16 := by norm_num
  by_cases h : p.flag &&& 0x10000 ≠ 0
  · simp only [if_pos h]
    rw [h216, mod_two_pow_and _ _ _ (by omega)]
    exact or_and_of_disjoint _ _ _ hdis
  · simp only [if_neg h]
    rw [h216, mod_two_pow_and _ _ _ (by omega)]

theorem flag_read_and4 (p : mem_aln_t) :
    (flagMapQ p >>> 16) &&& 4 = p.flag &&& 4 :=
  flag_read_and p 4 (by norm_num) (by decide)

theorem flag_read_and9 (p : mem_aln_t) :
    (flagMapQ p >>> 16) &&& 9 = p.flag &&& 9 :=
  flag_read_and p 9 (by norm_num) (by decide)

theorem bytesToWords_length (bs : List Nat) :
    (bytesToWords bs).length = (bs.length + 3) / 4 := by
  induction bs using bytesToWords.induct
  all_goals simp [bytesToWords]
  all_goals omega

theorem mdWords_length (p : mem_aln_t) :
    (mdWords p).length = (nMD p + 3) / 4 := by
  unfold mdWords
  by_cases h : nMD p = 0
  · simp [h]
  · have hlen : nMD p = p.MD.length := by
      unfold nMD at *
      by_cases hc : p.cigar.length ≠ 0 <;> simp [hc] at *
    by_cases hmd : p.MD = []
    · rw [hmd] at hlen; simp at hlen; exact absurd hlen h
    · simp [h, hmd, bytesToWords_length, hlen]

theorem xaWords_length (p : mem_aln_t) :
    (xaWords p).length = (nXA p + 3) / 4 := by
  unfold xaWords
  by_cases h : nXA p = 0
  · simp [h]
  · match hx : p.XA with
    | none => unfold nXA at h; simp [hx] at h
    | some s =>
      have hlen : nXA p = s.length := by unfold nXA; simp [hx]
      by_cases hs : s = []
      · rw [hs] at hlen; simp at hlen; exact absurd hlen h
      · simp [h, hx, hs, bytesToWords_length, hlen]

theorem bufLenGo_cons (p m : mem_aln_t) (hv : ValidAln p) (n : Nat) (ws : List Nat) :
    bufLenGo (n + 1) (fmt_BAMish_rec p m ++ ws) =
      (fmt_BAMish_rec p m).length + bufLenGo n ws := by
  obtain ⟨hc, hmd, hxa⟩ := hv
  have hnmd : nMD p ≤ p.MD.length := by unfold nMD; split <;> omega
  have hcm : u32n p.cigar.length = p.cigar.length := Nat.mod_eq_of_lt (by omega)
  have hmdm : u32n (nMD p) = nMD p := Nat.mod_eq_of_lt (by omega)
  have hxam : u32n (nXA p) = nXA p := Nat.mod_eq_of_lt (by omega)
  have hmdiv : (u32n (nMD p) + 3) >>> 2 = (mdWords p).length := by
    rw [hmdm, Nat.shiftRight_eq_div_pow, mdWords_length]
  have hxdiv : (u32n (nXA p) + 3) >>> 2 = (xaWords p).length := by
    rw [hxam, Nat.shiftRight_eq_div_pow, xaWords_length]
  by_cases h4 : p.flag &&& 4 = 0 <;> by_cases h9 : p.flag &&& 9 = 1 <;>
    simp only [fmt_BAMish_rec, mateWords, h4, h9, if_pos, if_neg, ite_true, ite_false,
      List.cons_append, List.append_assoc, List.nil_append, bufLenGo,
      flag_read_and4, flag_read_and9, List.drop_succ_cons, List.drop_zero,
      List.headD_cons, List.tail_cons, hcm, hmdiv, hxdiv,
      List.drop_left' (List.length_map _ _), List.drop_left' rfl,
      List.length_cons, List.length_append, List.length_map, List.length_nil,
      not_true, not_false_iff, if_true, if_false] <;>
    omega

theorem bufLenGo_records (alns : List (mem_aln_t × mem_aln_t))
    (h : ∀ a ∈ alns, ValidAln a.1) :
    bufLenGo alns.length (alns.map fun a => fmt_BAMish_rec a.1 a.2).flatten =
      ((alns.map fun a => fmt_BAMish_rec a.1 a.2).flatten).length := by
  induction alns with
  | nil => simp [bufLenGo]
  | cons a as ih =>
    simp only [List.map_cons, List.flatten_cons, List.length_cons, List.length_append]
    rw [bufLenGo_cons a.1 a.2 (h a (by simp)) as.length]
    rw [ih (fun x hx => h x (by simp [hx]))]

theorem bufLen_fmt_seq (alns : List (mem_aln_t × mem_aln_t))
    (h : ∀ a ∈ alns, ValidAln a.1) (hn : alns.length < 2147483648) :
    bufLen (fmt_BAMish_seq alns) = (fmt_BAMish_seq alns).length := by
  unfold bufLen fmt_BAMish_seq
  simp only [List.headD_cons, List.tail_cons, List.length_cons]
  have hcnt : u32n alns.length = alns.length := Nat.mod_eq_of_lt (by omega)
  rw [hcnt, bufLenGo_records alns h]
  omega

theorem createAlignments_flat (seqs : List (List (mem_aln_t × mem_aln_t)))
    (h : ∀ alns ∈ seqs, (∀ a ∈ alns, ValidAln a.1) ∧ alns.length < 2147483648) :
    jnibwa_createAlignments seqs = (seqs.map fmt_BAMish_seq).flatten := by
  unfold jnibwa_createAlignments
  congr 1
  apply List.map_congr_left
  intro alns hmem
  rw [bufLen_fmt_seq alns (h alns hmem).1 (h alns hmem).2, List.take_length]

theorem and_seven_eq_mod (x : Nat) : x &&& 7 = x % 8 := by
  have h := Nat.and_pow_two_sub_one_eq_mod x 3
  norm_num at h
  exact h

theorem getPadding_le (L : Nat) : getPadding L ≤ 7 := Nat.and_le_right

theorem getPadding_eq (L : Nat) : getPadding L = (8 - L % 8) % 8 := by
  unfold getPadding
  rw [and_seven_eq_mod, and_seven_eq_mod]

theorem getPadding_mod (L : Nat) : (L + getPadding L) % 8 = 0 := by
  rw [getPadding_eq]
  omega

theorem padBytes_create_length (ver payload : List Nat) :
    (jnibwa_createIndexFile ver payload).padBytes.length = getPadding payload.length := by
  have h7 : BWA_IDX_ID.length = 7 := by decide
  simp [jnibwa_createIndexFile, List.length_take, h7,
    Nat.min_eq_left (getPadding_le payload.length)]

theorem fileSize_create (ver payload : List Nat) :
    fileSize (jnibwa_createIndexFile ver payload) =
      payload.length + getPadding payload.length + footerSize := by
  rw [fileSize, padBytes_create_length]
  simp [jnibwa_createIndexFile]

theorem fileSize_create_mod (ver payload : List Nat) :
    fileSize (jnibwa_createIndexFile ver payload) % 8 = 0 := by
  rw [fileSize_create]
  have h := getPadding_mod payload.length
  unfold footerSize
  omega

theorem adler32_foldl_fst (bs : List Nat) :
    ∀ a b : Nat, a < 65521 →
      (bs.foldl adler32Step (a, b)).1 = (a + bs.sum) % 65521 := by
  induction bs with
  | nil => intro a b ha; simpa using (Nat.mod_eq_of_lt ha).symm
  | cons x bs ih =>
    intro a b ha
    simp only [List.foldl_cons, adler32Step, List.sum_cons]
    rw [ih _ _ (Nat.mod_lt _ (by norm_num))]
    omega

theorem adler32_foldl_snd_lt (bs : List Nat) :
    ∀ a b : Nat, b < 65521 →
      (bs.foldl adler32Step (a, b)).2 < 65521 := by
  induction bs with
  | nil => intro a b hb; simpa using hb
  | cons x bs ih =>
    intro a b hb
    simp only [List.foldl_cons, adler32Step]
    exact ih _ _ (Nat.mod_lt _ (by norm_num))

theorem list_sum_set (l : List Nat) :
    ∀ (i : Nat) (v : Nat) (h : i < l.length),
      (l.set i v).sum + l.get ⟨i, h⟩ = l.sum + v := by
  induction l with
  | nil => intro i v h; simp at h
  | cons x l ih =>
    intro i v h
    cases i with
    | zero => simp [List.set]; omega
    | succ j =>
      have hj : j < l.length := by simp only [List.length_cons] at h; omega
      have hih := ih j v hj
      simp only [List.set, List.sum_cons, List.get]
      omega

theorem bigAdler32_flip (l : List Nat) (i v : Nat) (hi : i < l.length)
    (hv : v < 65521) (hb : l.get ⟨i, hi⟩ < 65521) (hne : v ≠ l.get ⟨i, hi⟩) :
    bigAdler32 (l.set i v) ≠ bigAdler32 l := by
  intro heq
  simp only [bigAdler32] at heq
  have hA' : ((l.set i v).foldl adler32Step (1, 0)).1 = (1 + (l.set i v).sum) % 65521 :=
    adler32_foldl_fst _ 1 0 (by norm_num)
  have hA : (l.foldl adler32Step (1, 0)).1 = (1 + l.sum) % 65521 :=
    adler32_foldl_fst _ 1 0 (by norm_num)
  have hB' : ((l.set i v).foldl adler32Step (1, 0)).2 < 65521 :=
    adler32_foldl_snd_lt _ 1 0 (by norm_num)
  have hB : (l.foldl adler32Step (1, 0)).2 < 65521 :=
    adler32_foldl_snd_lt _ 1 0 (by norm_num)
  have hsum := list_sum_set l i v hi
  have hAlt : (1 + (l.set i v).sum) % 65521 < 65521 := Nat.mod_lt _ (by norm_num)
  have hAlt2 : (1 + l.sum) % 65521 < 65521 := Nat.mod_lt _ (by norm_num)
  rw [hA', hA] at heq
  omega

theorem corrupt_proj (ver payload : List Nat) (i v : Nat) :
    (corruptPayload (jnibwa_createIndexFile ver payload) i v).payload = payload.set i v ∧
    (corruptPayload (jnibwa_createIndexFile ver payload) i v).padBytes =
      BWA_IDX_ID.take (getPadding payload.length) ∧
    (corruptPayload (jnibwa_createIndexFile ver payload) i v).footer =
      (jnibwa_createIndexFile ver payload).footer := by
  refine ⟨rfl, rfl, rfl⟩

theorem fileSize_corrupt (ver payload : List Nat) (i v : Nat) :
    fileSize (corruptPayload (jnibwa_createIndexFile ver payload) i v) =
      payload.length + getPadding payload.length + 64 := by
  have h7 : BWA_IDX_ID.length = 7 := by decide
  simp [fileSize, corruptPayload, jnibwa_createIndexFile, List.length_take, h7,
    Nat.min_eq_left (getPadding_le payload.length), List.length_set, footerSize]

theorem open_corrupt_eval (ver payload : List Nat) (i v : Nat)
    (hi : i < payload.length) (hbytes : ∀ b ∈ payload, b < 256) (hv : v < 256)
    (hne : v ≠ payload.get ⟨i, hi⟩) (cc : Bool) :
    jnibwa_openIndex ver (corruptPayload (jnibwa_createIndexFile ver payload) i v) false cc
      = if cc then .errBadCRC else .ok payload.length := by
  have hfs := fileSize_corrupt ver payload i v
  have hpadmod := getPadding_mod payload.length
  have hpadle := getPadding_le payload.length
  unfold jnibwa_openIndex
  rw [if_neg (by omega : ¬(fileSize (corruptPayload (jnibwa_createIndexFile ver payload) i v) % 8 ≠ 0))]
  rw [if_neg (by rw [hfs]; unfold footerSize; omega)]
  rw [if_neg (by simp [corruptPayload, jnibwa_createIndexFile])]
  rw [if_neg (by
    show ¬((corruptPayload (jnibwa_createIndexFile ver payload) i v).footer.image_len ≠ _)
    rw [hfs]
    simp [corruptPayload, jnibwa_createIndexFile, footerSize]
    omega)]
  rw [if_neg (by simp [corruptPayload, jnibwa_createIndexFile])]
  have hpadlen : (corruptPayload (jnibwa_createIndexFile ver payload) i v).footer.pad_len =
      getPadding payload.length := rfl
  have himgsz : fileSize (corruptPayload (jnibwa_createIndexFile ver payload) i v) - footerSize -
      (corruptPayload (jnibwa_createIndexFile ver payload) i v).footer.pad_len =
      payload.length := by
    rw [hfs, hpadlen]; unfold footerSize; omega
  rw [himgsz]
  have htake : ((corruptPayload (jnibwa_createIndexFile ver payload) i v).payload ++
      (corruptPayload (jnibwa_createIndexFile ver payload) i v).padBytes).take payload.length =
      payload.set i v := by
    rw [(corrupt_proj ver payload i v).1, (corrupt_proj ver payload i v).2.1]
    exact List.take_left' (by simp [List.length_set])
  rw [htake]
  have hgetlt : payload.get ⟨i, hi⟩ < 65521 := by
    have := hbytes (payload.get ⟨i, hi⟩) (payload.get_mem i hi)
    omega
  have hcrc : bigAdler32 (payload.set i v) ≠
      (corruptPayload (jnibwa_createIndexFile ver payload) i v).footer.crc := by
    have : (corruptPayload (jnibwa_createIndexFile ver payload) i v).footer.crc =
        bigAdler32 payload := rfl
    rw [this]
    exact bigAdler32_flip payload i v hi (by omega) hgetlt hne
  cases cc with
  | true =>
    rw [if_pos (by exact ⟨rfl, hcrc⟩)]
    simp
  | false =>
    rw [if_neg (by simp)]
    simp

theorem cigarRefLen_eq_spec (c : List Nat) : cigarRefLen c = spec_refConsumed c := by
  unfold cigarRefLen spec_refConsumed
  have hgen : ∀ (l : List Nat) (a : Nat),
      l.foldl (fun len lenOp =>
        if lenOp &&& 0xf = 0 ∨ lenOp &&& 0xf = 2 then len + (lenOp >>> 4) else len) a =
      a + ((l.filter fun lenOp =>
        lenOp &&& 0xf = 0 ∨ lenOp &&& 0xf = 2).map fun lenOp => lenOp >>> 4).sum := by
    intro l
    induction l with
    | nil => intro a; simp
    | cons x l ih =>
      intro a
      by_cases hx : x &&& 0xf = 0 ∨ x &&& 0xf = 2
      · simp only [List.foldl_cons, List.filter_cons, if_pos hx, hx]
        rw [ih]
        simp [hx]
        omega
      · simp only [List.foldl_cons, List.filter_cons, if_neg hx]
        rw [ih]
        simp [hx]
  simpa using hgen c 0

theorem tlen_eq_spec_amended (p m : mem_aln_t) :
    tlen p m = spec_templateLength_amended p m := by
  unfold tlen spec_templateLength_amended
  rw [cigarRefLen_eq_spec, cigarRefLen_eq_spec]

theorem mateWords_eq_spec_amended (p m : mem_aln_t) (h : p.flag &&& 0x9 = 1) :
    mateWords p m = [u32 m.rid, u32 m.pos, u32 (spec_templateLength_amended p m)] := by
  unfold mateWords
  rw [if_pos h, tlen_eq_spec_amended]

theorem cigarWord_spec (l c : Nat) (hc : c ≤ 4) (hl : l < 268435456) :
    cigarWord (l * 16 + c) = (if c ≤ 2 then l * 16 + c else l * 16 + (c + 1)) ∧
    cigarWord (l * 16 + c) >>> 4 = l ∧
    cigarWord (l * 16 + c) &&& 0xf ≠ 3 := by
  have hmask : ∀ k : Nat, k &&& 0xf = k % 16 := by
    intro k
    have h := Nat.and_pow_two_sub_one_eq_mod k 4
    norm_num at h
    exact h
  have hmod : (l * 16 + c) % 16 = c := by omega
  have hword : l * 16 + c < 4294967296 := by omega
  have hword1 : l * 16 + c + 1 < 4294967296 := by omega
  unfold cigarWord u32n
  rw [hmask, hmod]
  by_cases h2 : c ≤ 2
  · rw [if_neg (by omega), if_pos h2, Nat.mod_eq_of_lt hword]
    refine ⟨rfl, ?_, ?_⟩
    · rw [Nat.shiftRight_eq_div_pow]
      norm_num
      omega
    · rw [hmask]
      omega
  · rw [if_pos (by omega), if_neg h2, Nat.mod_eq_of_lt hword1]
    refine ⟨by omega, ?_, ?_⟩
    · rw [Nat.shiftRight_eq_div_pow]
      norm_num
      omega
    · rw [hmask]
      omega

theorem flatten_names_length (names : List (List Nat)) :
    ((names.map fun nm => le32 nm.length ++ nm).flatten).length =
      (names.map fun nm => 4 + nm.length).sum := by
  induction names with
  | nil => rfl
  | cons nm names ih =>
    simp only [List.map_cons, List.flatten_cons, List.length_append, List.sum_cons, ih]
    have h4 : (le32 nm.length).length = 4 := rfl
    omega

theorem getRefContigNames_size (names : List (List Nat)) :
    (jnibwa_getRefContigNames names).1 =
      4 + names.length + (names.map fun nm => 4 + nm.length).sum ∧
    (jnibwa_getRefContigNames names).2.length =
      4 + (names.map fun nm => 4 + nm.length).sum ∧
    (jnibwa_getRefContigNames names).2 =
      le32 names.length ++ (names.map fun nm => le32 nm.length ++ nm).flatten := by
  refine ⟨?_, ?_, rfl⟩
  · unfold jnibwa_getRefContigNames
    induction names with
    | nil => simp
    | cons nm names ih =>
      simp only [List.map_cons, List.sum_cons, List.length_cons] at *
      omega
  · show (le32 names.length ++ (names.map fun nm => le32 nm.length ++ nm).flatten).length = _
    rw [List.length_append, flatten_names_length]
    rfl

theorem fmt_rec_no_cigar (p m : mem_aln_t) (h4 : p.flag &&& 0x4 = 0)
    (hc : p.cigar = []) (md' : List Nat) :
    fmt_BAMish_rec { p with MD := md' } m = fmt_BAMish_rec p m ∧
    fmt_BAMish_rec p m =
      flagMapQ p :: u32 p.rid :: u32 p.pos :: u32 p.NM :: u32 p.score :: u32 p.sub ::
        0 :: 0 :: u32n (nXA p) :: (xaWords p ++ mateWords p m) := by
  have hmd : ∀ md : List Nat, nMD { p with MD := md } = 0 := by
    intro md
    simp [nMD, hc]
  constructor
  · simp [fmt_BAMish_rec, flagMapQ, mdWords, xaWords, nXA, mateWords, tlen, hc, hmd, nMD]
  · simp [fmt_BAMish_rec, h4, hc, mdWords, nMD, u32n]


/-- Claim C1: for every alignment record list (mapped or unmapped, paired or
unpaired, any number of cigar ops, any MD/XA lengths, within the int32 bounds
of the C code), the word count `bufLen` computes over the buffer `fmt_BAMish`
wrote equals exactly the number of 32-bit words written, so measure times 4
equals the bytes encoded; both functions branch on the same flag tests
(`flag & 0x4` for mapped fields, `(flag & 0x9) == 1` for mate fields). -/
theorem claim_C1_bufLen_matches_encoder (alns : List (mem_aln_t × mem_aln_t))
    (h : ∀ a ∈ alns, ValidAln a.1) (hn : alns.length < 2147483648) :
    bufLen (fmt_BAMish_seq alns) = (fmt_BAMish_seq alns).length ∧
    bufLen (fmt_BAMish_seq alns) * 4 = (fmt_BAMish_seq alns).length * 4 := by
  have heq := bufLen_fmt_seq alns h hn
  exact ⟨heq, by omega⟩

/-- Witness for C1 at a concrete batch holding a mapped paired record with
cigar, MD and XA, an unmapped record, and a reverse-strand mapped record. -/
theorem claim_C1_witness :
    bufLen (fmt_BAMish_seq exBatch1) = (fmt_BAMish_seq exBatch1).length ∧
    bufLen (fmt_BAMish_seq exBatch1) * 4 = (fmt_BAMish_seq exBatch1).length * 4 :=
  claim_C1_bufLen_matches_encoder exBatch1 (by decide) (by decide)

/-- Claim C2, counterexample: the claim says the batch output buffer begins
with a u32 count of sequences; on a two-sequence batch the first word of
`jnibwa_createAlignments` is 1 (the first sequence's alignment count), not 2:
the code emits no batch-level count word. -/
theorem claim_C2_counterexample :
    exBatch2.length = 2 ∧ (jnibwa_createAlignments exBatch2).headD 0 ≠ 2 := by
  decide

/-- Claim C2 as amended: the output buffer is exactly the concatenation, in
input order, of the per-sequence buffers, each being that sequence's u32
alignment count followed by its records — with no leading batch count word;
a sequence with zero alignments still contributes its zero count word. -/
theorem claim_C2_amended (seqs : List (List (mem_aln_t × mem_aln_t)))
    (h : ∀ alns ∈ seqs, (∀ a ∈ alns, ValidAln a.1) ∧ alns.length < 2147483648) :
    jnibwa_createAlignments seqs = (seqs.map fmt_BAMish_seq).flatten ∧
    fmt_BAMish_seq [] = [0] :=
  ⟨createAlignments_flat seqs h, rfl⟩

/-- Witness for the amended C2 at the concrete two-sequence batch. -/
theorem claim_C2_witness :
    jnibwa_createAlignments exBatch2 = (exBatch2.map fmt_BAMish_seq).flatten ∧
    fmt_BAMish_seq [] = [0] :=
  claim_C2_amended exBatch2 (by decide)

/-- Claim C3: for every built image, `pad_len = (8 - L mod 8) mod 8` with
`0 ≤ pad_len < 8` and `(L + pad_len) mod 8 = 0`; the footer's `image_len`
equals the total file size; the file size is a multiple of 8; and the magic
equals `"BWAINDX"`. -/
theorem claim_C3_footer_invariants (ver payload : List Nat) :
    getPadding payload.length = (8 - payload.length % 8) % 8 ∧
    getPadding payload.length < 8 ∧
    (payload.length + getPadding payload.length) % 8 = 0 ∧
    (jnibwa_createIndexFile ver payload).footer.image_len =
      fileSize (jnibwa_createIndexFile ver payload) ∧
    fileSize (jnibwa_createIndexFile ver payload) % 8 = 0 ∧
    (jnibwa_createIndexFile ver payload).footer.id = BWA_IDX_ID := by
  have hle := getPadding_le payload.length
  have himg : (jnibwa_createIndexFile ver payload).footer.image_len =
      payload.length + footerSize + getPadding payload.length := rfl
  refine ⟨getPadding_eq payload.length, by omega, getPadding_mod payload.length, ?_,
    fileSize_create_mod ver payload, rfl⟩
  rw [himg, fileSize_create]
  omega

/-- Claim C4: flipping any single payload byte of a built image makes opening
with checksum verification fail with the CRC-corruption error (the recomputed
chained Adler-32 over the first `image_len - footer - pad` bytes differs from
the stored checksum), while opening the same corrupted file without checksum
verification succeeds, since the checksum is never examined. -/
theorem claim_C4_checksum_sensitivity (ver payload : List Nat) (i v : Nat)
    (hi : i < payload.length) (hbytes : ∀ b ∈ payload, b < 256) (hv : v < 256)
    (hne : v ≠ payload.get ⟨i, hi⟩) :
    jnibwa_openIndex ver (corruptPayload (jnibwa_createIndexFile ver payload) i v)
      false true = .errBadCRC ∧
    jnibwa_openIndex ver (corruptPayload (jnibwa_createIndexFile ver payload) i v)
      false false = .ok payload.length :=
  ⟨by simpa using open_corrupt_eval ver payload i v hi hbytes hv hne true,
   by simpa using open_corrupt_eval ver payload i v hi hbytes hv hne false⟩

/-- Witness for C4: flip byte 0 of an 8-byte payload from 1 to 9. -/
theorem claim_C4_witness :
    jnibwa_openIndex ver0 (corruptPayload (jnibwa_createIndexFile ver0 pay0) 0 9)
      false true = .errBadCRC ∧
    jnibwa_openIndex ver0 (corruptPayload (jnibwa_createIndexFile ver0 pay0) 0 9)
      false false = .ok pay0.length :=
  claim_C4_checksum_sensitivity ver0 pay0 0 9 (by decide) (by decide) (by decide)
    (by decide)

/-- Claim C6, counterexample: the claim says the template length is zero when
THE MATE is unmapped or on a different reference; in the code the zero test is
on THIS read's unmapped bit.  For a paired record that is itself unmapped
(`flag = 5`) with a mapped mate on the same reference, the code writes 0 while
the claim's formula yields 11, so the emitted mate words differ from the
claim's prediction. -/
theorem claim_C6_counterexample :
    exC6p.flag &&& 0x9 = 1 ∧
    spec_templateLength_asStated exC6p exC6m = 11 ∧
    mateWords exC6p exC6m ≠
      [u32 exC6m.rid, u32 exC6m.pos, u32 (spec_templateLength_asStated exC6p exC6m)] := by
  decide

/-- Claim C6 as amended: for every paired record whose mate is mapped
(`(flag & 0x9) == 1`), the encoder appends mate reference id, mate position,
and a template length that is 0 when THIS READ is unmapped or on a different
reference than its mate, and otherwise `m0 - p0 + bias` with `p0`/`m0` the
5-prime/3-prime coordinates (start position, plus reference-consumed cigar
length minus 1 for reverse strand, counting only ops with internal codes 0
and 2) and bias -1/+1/0 by strict comparison. -/
theorem claim_C6_amended (p m : mem_aln_t) (h : p.flag &&& 0x9 = 1) :
    mateWords p m = [u32 m.rid, u32 m.pos, u32 (spec_templateLength_amended p m)] :=
  mateWords_eq_spec_amended p m h

/-- Witness for the amended C6 at the unmapped-read/mapped-mate pair. -/
theorem claim_C6_witness :
    mateWords exC6p exC6m =
      [u32 exC6m.rid, u32 exC6m.pos, u32 (spec_templateLength_amended exC6p exC6m)] :=
  claim_C6_amended exC6p exC6m (by decide)

/-- Claim C7, counterexample: the claim says no emitted cigar operation has
code 2 in the external vocabulary, but an internal D op (code 2) is emitted
unchanged: the word for internal `(len 1, op 2)` is written verbatim with
external code 2.  (The hole in the external vocabulary is at code 3, N.) -/
theorem claim_C7_counterexample :
    cigarWord (1 * 16 + 2) = 1 * 16 + 2 ∧ cigarWord (1 * 16 + 2) &&& 0xf = 2 := by
  decide

/-- Claim C7 as amended: for an internal op code `c ≤ 4` and length `l`, the
encoder writes `(l << 4) | c` when `c ≤ 2` and `(l << 4) | (c + 1)` when
`c > 2`; the length field is preserved, and no emitted operation has code 3
(the external N slot) in the external vocabulary. -/
theorem claim_C7_amended (l c : Nat) (hc : c ≤ 4) (hl : l < 268435456) :
    cigarWord (l * 16 + c) = (if c ≤ 2 then l * 16 + c else l * 16 + (c + 1)) ∧
    cigarWord (l * 16 + c) >>> 4 = l ∧
    cigarWord (l * 16 + c) &&& 0xf ≠ 3 :=
  cigarWord_spec l c hc hl

/-- Witness for the amended C7 at length 7, internal op 3 (S). -/
theorem claim_C7_witness :
    cigarWord (7 * 16 + 3) = (if 3 ≤ 2 then 7 * 16 + 3 else 7 * 16 + (3 + 1)) ∧
    cigarWord (7 * 16 + 3) >>> 4 = 7 ∧
    cigarWord (7 * 16 + 3) &&& 0xf ≠ 3 :=
  claim_C7_amended 7 3 (by decide) (by decide)

/-- Claim C8, counterexample: the claim says the reported buffer size equals
`4 + sum (4 + len)`; for one contig named by a single byte that formula gives
9, but the code reserves one extra byte per name (`strlen + 1`) and reports
10. -/
theorem claim_C8_counterexample :
    (jnibwa_getRefContigNames [[65]]).1 ≠
      4 + ([[(65 : Nat)]].map fun nm => 4 + nm.length).sum := by
  decide

/-- Claim C8 as amended: the buffer consists of exactly a u32 count then, per
contig in table order, a u32 name length and the name bytes; the bytes
written occupy `4 + sum (4 + len)` while the size reported to the caller is
`4 + count + sum (4 + len)` — one unwritten slack byte per name.  The
operation fails only on allocation failure, in which case nothing at all is
written (the size is computed in full before the allocation and before any
byte is written); on every successful allocation it returns the complete
buffer. -/
theorem claim_C8_amended (names : List (List Nat)) (allocOk : Bool) :
    jnibwa_getRefContigNames_alloc allocOk names =
      (if allocOk then some (jnibwa_getRefContigNames names) else none) ∧
    (jnibwa_getRefContigNames names).1 =
      4 + names.length + (names.map fun nm => 4 + nm.length).sum ∧
    (jnibwa_getRefContigNames names).2.length =
      4 + (names.map fun nm => 4 + nm.length).sum ∧
    (jnibwa_getRefContigNames names).2 =
      le32 names.length ++ (names.map fun nm => le32 nm.length ++ nm).flatten := by
  refine ⟨?_, getRefContigNames_size names⟩
  cases allocOk <;> rfl

/-- Claim C9: evaluation of the allocation-failure path (jnibwa.c lines
323-327).  When the result-buffer malloc fails with one sequence owning a
non-null sam buffer, the code returns null having freed no sam buffer — the
intermediate alignment lists leak, contradicting the claim and the spec's
no-leak requirement; on the success path the sam buffer is freed. -/
theorem claim_C9_oom_behavior :
    (jnibwa_createAlignments_alloc false [some [4]]).result = none ∧
    (jnibwa_createAlignments_alloc false [some [4]]).freedSams = [] ∧
    (jnibwa_createAlignments_alloc true [some [4]]).freedSams = [[4]] := by
  decide

/-- Claim C10: for every mapped record with zero cigar operations the encoder
emits an MD length of 0 and no MD bytes, and the result does not depend on
the MD string attached to the record (the string is only read when at least
one cigar op exists). -/
theorem claim_C10_md_not_read_without_cigar (p m : mem_aln_t) (md' : List Nat)
    (h4 : p.flag &&& 0x4 = 0) (hc : p.cigar = []) :
    fmt_BAMish_rec { p with MD := md' } m = fmt_BAMish_rec p m ∧
    fmt_BAMish_rec p m =
      flagMapQ p :: u32 p.rid :: u32 p.pos :: u32 p.NM :: u32 p.score :: u32 p.sub ::
        0 :: 0 :: u32n (nXA p) :: (xaWords p ++ mateWords p m) :=
  fmt_rec_no_cigar p m h4 hc md'

/-- Witness for C10 at a mapped cigar-less record carrying MD bytes. -/
theorem claim_C10_witness :
    fmt_BAMish_rec { exNoCig with MD := [88] } exUnmapped =
        fmt_BAMish_rec exNoCig exUnmapped ∧
    fmt_BAMish_rec exNoCig exUnmapped =
      flagMapQ exNoCig :: u32 exNoCig.rid :: u32 exNoCig.pos :: u32 exNoCig.NM ::
        u32 exNoCig.score :: u32 exNoCig.sub :: 0 :: 0 :: u32n (nXA exNoCig) ::
        (xaWords exNoCig ++ mateWords exNoCig exUnmapped) :=
  claim_C10_md_not_read_without_cigar exNoCig exUnmapped [88] (by decide) (by decide)
